import Mathlib

set_option maxHeartbeats 1000000
set_option maxRecDepth 4000

/-!
Verification development for the QuiKnow ask pipeline.

Strings are modelled as `List Char` (`Str`).  Python's `str.strip`,
`str.lower`, substring tests and the regular expressions used by the
code are embedded as executable functions below, each next to the
source construct it translates.  External effects (the chat model, the
MCP tool transport, `json.loads`, `json.dumps`, the tiktoken encoder)
are modelled as oracle parameters: they are inputs to the program, not
code of this repository.
-/

abbrev Str := List Char

/-- Python whitespace for `str.strip()` and the regex class `\s`
(ASCII part; the corpus strings here contain no exotic Unicode
whitespace). -/
def pyIsSpace (c : Char) : Bool :=
  c == ' ' || c == '\t' || c == '\n' || c == '\r' || c == '\x0b' || c == '\x0c'

/-- `s.strip(<chars satisfying p>)`: remove matching characters from
both ends. -/
def pyStripBy (p : Char → Bool) (s : Str) : Str :=
  ((s.dropWhile p).reverse.dropWhile p).reverse

/-- Python `s.strip()`. -/
def pyStripWS (s : Str) : Str := pyStripBy pyIsSpace s

/-- Python `s.lower()` (ASCII case mapping; agrees with `str.lower` on
the ASCII/CJK strings this program manipulates). -/
def lowerStr (s : Str) : Str := s.map Char.toLower

/-- The regex class `[A-Za-z0-9_]`. -/
def isWordChar (c : Char) : Bool := c.isAlphanum || c == '_'

/-- Python `s.startswith(p)`. -/
def strStarts : Str → Str → Bool
  | [], _ => true
  | _ :: _, [] => false
  | p :: ps, c :: cs => p == c && strStarts ps cs

/-- Python `p in s` (substring containment). -/
def strHasSub (p : Str) : Str → Bool
  | [] => strStarts p []
  | c :: cs => strStarts p (c :: cs) || strHasSub p cs

/-- `Except.isOk`. -/
def isOkX {ε α : Type} : Except ε α → Bool
  | .ok _ => true
  | .error _ => false

/-! ## src/ask/sql.py — `sanitize_sql` (lines 10-25) -/

/-- `FORBIDDEN_SQL_TOKENS` from `src/ask/sql.py` line 10, verbatim. -/
def FORBIDDEN_SQL_TOKENS : List Str :=
  [";", "--", "/*", " attach ", " pragma ", " drop ", " delete ",
   " update ", " insert ", " alter ", " create ", " replace ", " vacuum "].map String.toList

def tok_semi : Str := ";".toList
def tok_dash : Str := "--".toList
def tok_slashstar : Str := "/*".toList
def spaceTok : Str := " ".toList
def selectTok : Str := "select".toList
def limitTok : Str := " limit ".toList
def limitAppend : Str := " LIMIT 200".toList

/-- The guard `kw.startswith(" ") or kw.endswith(" ") or kw in [";","--","/*"]`
from `sanitize_sql` line 19. -/
def tokCond (kw : Str) : Bool :=
  strStarts spaceTok kw || strStarts spaceTok kw.reverse ||
    kw == tok_semi || kw == tok_dash || kw == tok_slashstar

/-- The loop body of lines 18-20: some forbidden token fires on `low`. -/
def forbidden_check (low : Str) : Bool :=
  FORBIDDEN_SQL_TOKENS.any (fun kw => strHasSub (pyStripWS kw) low && tokCond kw)

/-- Lines 21-22: `if " limit " not in low: s += " LIMIT 200"`. -/
def with_limit (s : Str) : Str :=
  if strHasSub limitTok (lowerStr s) then s else s ++ limitAppend

/-- Line 14: `s = sql.strip().strip(";")`. -/
def strip_sql_text (sql : Str) : Str :=
  pyStripBy (fun c => c == ';') (pyStripWS sql)

/-- `sanitize_sql` lines 15-25, applied to the already-stripped text. -/
def sanitize_stripped (s : Str) : Except Str Str :=
  let low := lowerStr s
  if strStarts selectTok low then
    if forbidden_check low then .error "forbidden token".toList
    else
      let s2 := with_limit s
      if 2000 < s2.length then .error "sql too long".toList else .ok s2
  else .error "only SELECT allowed".toList

/-- `sanitize_sql` from `src/ask/sql.py` lines 13-25. -/
def sanitize_sql (sql : Str) : Except Str Str :=
  sanitize_stripped (strip_sql_text sql)

/-! Whole-word / operator-token occurrence, the reading used by the
specification's sanitization sentence. -/

def WORD_TOKENS : List Str :=
  ["attach", "pragma", "drop", "delete", "update", "insert", "alter",
   "create", "replace", "vacuum"].map String.toList

def OP_TOKENS : List Str := [";", "--", "/*"].map String.toList

/-- `w` occurs in `l` delimited by non-word characters (or the ends). -/
def WordTokenHit (w l : Str) : Prop :=
  ∃ pre post, l = pre ++ w ++ post ∧
    (pre = [] ∨ ∃ c, pre.getLast? = some c ∧ isWordChar c = false) ∧
    (post = [] ∨ ∃ c, post.head? = some c ∧ isWordChar c = false)

/-- The spec's forbidden-token condition: a keyword as a whole word, or
one of the three operator tokens anywhere. -/
def HasForbidden (l : Str) : Prop :=
  (∃ w ∈ WORD_TOKENS, WordTokenHit w l) ∨
  (∃ op ∈ OP_TOKENS, ∃ pre post, l = pre ++ op ++ post)

/-! Concrete inputs used by the sanitize claims. -/

def qDropTable : Str := "DROP TABLE t".toList
def qSelectSemiDrop : Str := "select 1; drop table t".toList
def qSelectSemi : Str := "select 1;".toList
def qSelectSemiOut : Str := "select 1 LIMIT 200".toList
def qSelectStar : Str := "select * from t".toList
def qSelectStarOut : Str := "select * from t LIMIT 200".toList
def qBigPad : Str := "select 1".toList ++ List.replicate 1995 ' '
def wDropX : Str := "drop x".toList
def wDashMid : Str := "select a--b".toList
def wWithLimit : Str := "select * from t limit 5".toList
def wNoLimit : Str := "select 2".toList
def wLong : Str := "select ".toList ++ List.replicate 1994 'a' ++ " limit 1".toList

/-! ## src/ask/sql.py — `maybe_sql_analyze` (lines 28-206)

The chat model and the SQL executor are effectful collaborators; they
enter the embedding as oracle values.  The composite of `model.ainvoke`
and `extract_json` (the parsed decision dict) is abstracted as an
`Option ParsedDecision` input, and each executor call is a pure
function `Str → ToolResult`.  Executed statements and model calls are
recorded in an event trace. -/

def sSuccess : Str := "success".toList
def sError : Str := "error".toList
def csvExcelType : Str := "csv_excel".toList
def sqlModeTok : Str := "sql".toList

/-- A leaf dict from `gather_context` (`src/ask/agent.py` lines 179-183);
field defaults mirror the `.get` defaults used at the read sites. -/
structure LeafRec where
  id : Str := []
  context : Str := []
  node_type : Str := "leaf".toList
  hit : Bool := false
deriving DecidableEq, Repr

structure GatherNode where
  leaves : List LeafRec := []
deriving DecidableEq, Repr

/-- A normalized tool-result dict as read by the callers: `status`,
`result` (overview/expand text), `nodes` (gather), `rows`/`message`
(sql_tool).  `rows` keeps only each row's `"name"` entry, which is all
`maybe_sql_analyze` reads; `none` stands for a row that is not a dict
or has no name. -/
structure ToolResult where
  status : Option Str := none
  result : Str := []
  nodes : List GatherNode := []
  rows : List (Option Str) := []
  message : Option Str := none
deriving DecidableEq, Repr

/-- A context item as consumed by `maybe_sql_analyze`. -/
structure SqlCtx where
  id : Str := []
  context : Str := []
  node_type : Str := []
deriving DecidableEq, Repr

/-- `columns_meta[tb]`: `{"safe": [...], "quote": [...]}`. -/
structure ColMeta where
  safe : List Str := []
  quote : List Str := []
deriving DecidableEq, Repr

/-- The model's parsed JSON decision (`parsed.get` with defaults). -/
structure ParsedDecision where
  mode : Str := []
  sql : Str := []
  answer : Str := []
deriving DecidableEq, Repr

/-- The model object as `maybe_sql_analyze` uses it: an optional
`agent_call_sql` attribute and the parsed decision (`none` models an
`ainvoke` exception or unparseable output, both of which make the
function return `None`). -/
structure SqlModel where
  agent_call_sql : Option (Str → ToolResult) := none
  decision : Option ParsedDecision := none

/-- The function's result dict: `{"mode":"sql","sql":...,"sql_result":...}`
or `{"mode":"nl","answer":...}`. -/
inductive SqlDecision where
  | sql (q : Str) (result : ToolResult)
  | nl (answer : Str)
deriving DecidableEq, Repr

/-- A backend tool invocation with its payload. -/
inductive ToolCall where
  | searchDocuments (mode : Str) (ids : Option (List Str)) (keywords : List Str)
  | gatherContext (node_ids : List Str) (keywords : List Str)
  | sqlTool (sql : Str)
deriving DecidableEq, Repr

/-- Call sites of `model.ainvoke`, keyed with the data the prompt is
built from (the fixed instruction texts add nothing provable). -/
inductive ModelSite where
  | tags (base : Str)
  | selectFiles (question tree : Str)
  | selectNodes (question structTree : Str)
  | sqlDecision
  | finalAnswer (question context : Str)
  | decompose (question : Str)
  | synthesize (question : Str)
deriving DecidableEq, Repr

/-- Trace of externally visible actions of one pipeline run. -/
inductive Event where
  | toolCall (tc : ToolCall)
  | modelCall (site : ModelSite)
  | fileWrite (name : Str) (content : Str)
deriving DecidableEq, Repr

/-- Python `sorted` order on strings (code-point lexicographic). -/
def strLt : Str → Str → Bool
  | [], [] => false
  | [], _ :: _ => true
  | _ :: _, [] => false
  | a :: as, b :: bs => if a < b then true else if b < a then false else strLt as bs

def insertSorted (x : Str) : List Str → List Str
  | [] => [x]
  | y :: ys => if strLt x y then x :: y :: ys else y :: insertSorted x ys

def sortStrs (l : List Str) : List Str := l.foldr insertSorted []

/-- `csv_keywords` and `has_csv_kw` (lines 33-36). -/
def CSV_KEYWORDS : List Str := ["csv", "表", "字段", "列", "数据", "统计"].map String.toList

def has_csv_kw (question : Str) : Bool :=
  CSV_KEYWORDS.any (fun kw => strHasSub kw (lowerStr question))

/-- The synthesized placeholder context (line 41). -/
def fallback_ctx : SqlCtx :=
  { id := "csv_fallback".toList,
    context := "(无预览数据，可能需要列名与样例行)".toList,
    node_type := csvExcelType }

def tableMarker : Str := "TABLE:".toList
def cnTableMarker : Str := "对应数据表:".toList

/-- Try `MARKER\s*([A-Za-z0-9_]+)` at the head of `s`; the group must be
non-empty. -/
def try_marker_at (marker s : Str) : Option Str :=
  if strStarts marker s then
    let rest := (s.drop marker.length).dropWhile pyIsSpace
    let w := rest.takeWhile isWordChar
    if w.isEmpty then none else some w
  else none

/-- `re.search(r'(?:^|\n)TABLE:\s*([A-Za-z0-9_]+)', ctx)` (line 59):
scan every position that is at the start or right after a newline. -/
def search_table_from : Bool → Str → Option Str
  | _, [] => none
  | bdry, c :: rest =>
    match (if bdry then try_marker_at tableMarker (c :: rest) else none) with
    | some w => some w
    | none => search_table_from (c == '\n') rest

/-- `re.search(r'对应数据表:\s*([A-Za-z0-9_]+)', ctx)` (line 63). -/
def search_marker_scan (marker : Str) : Str → Option Str
  | [] => none
  | c :: rest =>
    match try_marker_at marker (c :: rest) with
    | some w => some w
    | none => search_marker_scan marker rest

/-- Table-name capture for one context item (lines 58-65). -/
def find_table_name (ctx : Str) : Option Str :=
  match search_table_from true ctx with
  | some w => some w
  | none => search_marker_scan cnTableMarker ctx

/-- `detected_tables` collected over `csv_ctx[:2]` (lines 47-67), as
Python's sorted set (lines 75). -/
def tables_sorted (items : List SqlCtx) : List Str :=
  sortStrs ((items.filterMap (fun it => find_table_name it.context)).dedup)

/-- `re.fullmatch(r"[A-Za-z_][A-Za-z0-9_]*", c)` (line 96). -/
def isIdentifier (c : Str) : Bool :=
  match c with
  | [] => false
  | h :: t => (h.isAlpha || h == '_') && t.all isWordChar

/-- `f'PRAGMA table_info("{tb}")'` (line 83). -/
def pragma_sql (tb : Str) : Str :=
  "PRAGMA table_info(\"".toList ++ tb ++ "\")".toList

/-- Column classification from one PRAGMA result (lines 85-100). -/
def meta_for (r : ToolResult) : ColMeta :=
  let cols := if r.status = some sSuccess then
      r.rows.filterMap (fun nm? => match nm? with
        | some nm => if nm.isEmpty then none else some nm
        | none => none)
    else []
  { safe := cols.filter isIdentifier, quote := cols.filter (fun c => !(isIdentifier c)) }

/-- `columns_meta` built over all detected tables (lines 78-102; the
executor is pure here, so the `except: continue` arm is vacuous). -/
def build_columns_meta (ex : Str → ToolResult) (tables : List Str) : List (Str × ColMeta) :=
  tables.map (fun tb => (tb, meta_for (ex (pragma_sql tb))))

def build_columns_meta_events (tables : List Str) : List Event :=
  tables.map (fun tb => Event.toolCall (ToolCall.sqlTool (pragma_sql tb)))

def fromDataTok : Str := " from data".toList
def dataName : Str := "data".toList
def nlRetryMsg : Str := "需要使用真实表名(非 data)。请重试。".toList
def nlUnsafeMsg : Str := "（SQL 不安全或无效，改为自然语言）".toList
def nlNoExecMsg : Str := "（系统缺少 SQL 执行能力）".toList

def word_boundary_at : Str → Bool
  | [] => true
  | c :: _ => !(isWordChar c)

def ci_eq_data (s : Str) : Bool := lowerStr (s.take 4) == dataName

/-- `re.sub(r'\bdata\b', tbl, raw_sql, re.IGNORECASE)` (lines 147-148):
left-to-right non-overlapping scan; the Bool argument records whether
the previous character is a word character (the `\b` look-behind), and
the Nat fuel equals the remaining length (a match consumes 4 ≥ 1
characters, so the fuel never runs out before the string does). -/
def sub_data_go (repl : Str) : Nat → Bool → Str → Str
  | _, _, [] => []
  | 0, _, _ => []
  | n + 1, prevW, c :: rest =>
    if !prevW && ci_eq_data (c :: rest) && word_boundary_at (rest.drop 3)
    then repl ++ sub_data_go repl n true (rest.drop 3)
    else c :: sub_data_go repl n (isWordChar c) rest

def sub_data_tables (repl s : Str) : Str := sub_data_go repl s.length false s

def aq_prev_ok : Option Char → Bool
  | none => true
  | some p => !(p == '"') && !(isWordChar p)

def aq_next_ok : Str → Bool
  | [] => true
  | c :: _ => !(isWordChar c) && !(c == '"')

/-- One column pass of `auto_quote` (lines 153-162): substitute bare
occurrences matching
`(?<!["])(?<![A-Za-z0-9_])col(?![A-Za-z0-9_])(?!["])` by `"col"`.
The `Option Char` is the previous character of the original string
(`none` at the start); fuel as in `sub_data_go`. -/
def aq_go (ch : Char) (ct : Str) : Nat → Option Char → Str → Str
  | _, _, [] => []
  | 0, _, _ => []
  | n + 1, prev, c :: rest =>
    if aq_prev_ok prev && strStarts (ch :: ct) (c :: rest) && aq_next_ok (rest.drop ct.length)
    then '"' :: ((ch :: ct) ++ ('"' :: aq_go ch ct n (some ((ch :: ct).getLastD ch)) (rest.drop ct.length)))
    else c :: aq_go ch ct n (some c) rest

def auto_quote_col (col s : Str) : Str :=
  match col with
  | [] => s
  | ch :: ct => aq_go ch ct s.length none s

/-- `auto_quote` (lines 153-162): every quote-column of every table in
metadata insertion order. -/
def auto_quote (cm : List (Str × ColMeta)) (s : Str) : Str :=
  cm.foldl (fun out e => e.2.quote.foldl (fun o col => auto_quote_col col o) out) s

def noSuchColTok : Str := "no such column: ".toList

/-- `re.search(r"no such column: ([A-Za-z0-9_]+)", msg)` (line 185). -/
def search_missing_col : Str → Option Str
  | [] => none
  | c :: rest =>
    if strStarts noSuchColTok (c :: rest) then
      let w := ((c :: rest).drop noSuchColTok.length).takeWhile isWordChar
      if w.isEmpty then search_missing_col rest else some w
    else search_missing_col rest

/-- `repair_candidates` (lines 189-193): every column of every table
whose name strictly extends the missing fragment. -/
def repair_candidates (cm : List (Str × ColMeta)) (missing : Str) : List (Str × Str) :=
  cm.foldr (fun e acc =>
    (((e.2.quote ++ e.2.safe).filter
        (fun col => strStarts missing col && decide (missing.length < col.length))).map
      (fun col => (e.1, col))) ++ acc) []

def fs_prev_ok : Option Char → Bool
  | none => true
  | some p => !(p == '"')

def amp_at : Str → Bool
  | '&' :: _ => true
  | _ => false

/-- The forced repair pattern `(?<!["])PRE(?=[&])` replaced by
`"target"` (lines 197-198); the look-ahead `&` is not consumed. -/
def fs_go (ph : Char) (pt target : Str) : Nat → Option Char → Str → Str
  | _, _, [] => []
  | 0, _, _ => []
  | n + 1, prev, c :: rest =>
    if fs_prev_ok prev && strStarts (ph :: pt) (c :: rest) && amp_at (rest.drop pt.length)
    then '"' :: (target ++ ('"' :: fs_go ph pt target n (some ((ph :: pt).getLastD ph)) (rest.drop pt.length)))
    else c :: fs_go ph pt target n (some c) rest

def forced_sub (pre target s : Str) : Str :=
  match pre with
  | [] => s
  | ph :: pt => fs_go ph pt target s.length none s

/-- Execution plus the single repair retry (lines 179-202). -/
def exec_and_repair (ex : Str → ToolResult) (cm : List (Str × ColMeta))
    (quoted : Str) : SqlDecision × List Event :=
  let res := ex quoted
  let ev0 := [Event.toolCall (ToolCall.sqlTool quoted)]
  if res.status = some sError ∧ res.message.isSome = true then
    match search_missing_col (res.message.getD []) with
    | some missing =>
      if cm.isEmpty then (SqlDecision.sql quoted res, ev0)
      else
        match repair_candidates cm missing with
        | [(_, target)] =>
          let repaired := forced_sub (target.takeWhile (fun c => !(c == '&'))) target quoted
          (SqlDecision.sql repaired (ex repaired),
            ev0 ++ [Event.toolCall (ToolCall.sqlTool repaired)])
        | _ => (SqlDecision.sql quoted res, ev0)
    | none => (SqlDecision.sql quoted res, ev0)
  else (SqlDecision.sql quoted res, ev0)

/-- Sanitize, auto-quote and execute one generated statement
(lines 164-202, after the table-name fix). -/
def sql_sanitize_stage (cm : List (Str × ColMeta)) (exec? : Option (Str → ToolResult))
    (raw : Str) : SqlDecision × List Event :=
  match sanitize_sql raw with
  | .error _ => (SqlDecision.nl nlUnsafeMsg, [])
  | .ok safe =>
    let quoted := if cm.isEmpty then safe else auto_quote cm safe
    match exec? with
    | none => (SqlDecision.nl nlNoExecMsg, [])
    | some ex => exec_and_repair ex cm quoted

/-- The `mode == "sql"` branch (lines 141-202), starting at the
literal-`data` table correction. -/
def sql_mode_branch (tables : List Str) (cm : List (Str × ColMeta))
    (exec? : Option (Str → ToolResult)) (raw : Str) : SqlDecision × List Event :=
  if strHasSub fromDataTok (lowerStr raw) = true ∧ tables.contains dataName = false then
    if tables.length = 1 then
      sql_sanitize_stage cm exec? (sub_data_tables (tables.headD []) raw)
    else (SqlDecision.nl nlRetryMsg, [])
  else sql_sanitize_stage cm exec? raw

/-- `maybe_sql_analyze` (`src/ask/sql.py` lines 28-206).  Returns the
decision together with the trace of executor invocations and the
decision model call. -/
def maybe_sql_analyze (ctxs : List SqlCtx) (question : Str)
    (sqlExec? : Option (Str → ToolResult)) (model? : Option SqlModel) :
    Option SqlDecision × List Event :=
  match model? with
  | none => (none, [])
  | some m =>
    let csv0 := ctxs.filter (fun c => c.node_type == csvExcelType)
    let csv1 := if csv0.isEmpty && has_csv_kw question then [fallback_ctx] else csv0
    if csv1.isEmpty then (none, [])
    else
      let tables := tables_sorted (csv1.take 2)
      let exec? := match sqlExec? with
        | some e => some e
        | none => m.agent_call_sql
      let cm := match exec? with
        | none => []
        | some ex => build_columns_meta ex tables
      let ev1 := match exec? with
        | none => []
        | some _ => build_columns_meta_events tables
      let ev2 := ev1 ++ [Event.modelCall ModelSite.sqlDecision]
      match m.decision with
      | none => (none, ev2)
      | some p =>
        if lowerStr p.mode = sqlModeTok then
          let r := sql_mode_branch tables cm exec? p.sql
          (some r.1, ev2 ++ r.2)
        else (some (SqlDecision.nl p.answer), ev2)

/-! Concrete inputs for the SQL-analyzer claims. -/

def wTableSales : Str := "sales".toList
def wTableA : Str := "ta".toList
def wTableB : Str := "tb".toList
def wFromData : Str := "select * from data".toList

def c4Meta : List (Str × ColMeta) :=
  [("t".toList, { safe := ["Name".toList], quote := ["R&D_Spend".toList] })]
def c4Quoted : Str := "SELECT R&2 FROM t LIMIT 5".toList
def c4Repaired : Str := "SELECT \"R&D_Spend\"&2 FROM t LIMIT 5".toList
def c4Msg : Str := "no such column: R".toList
def c4Exec : Str → ToolResult := fun s =>
  if s = c4Quoted then { status := some sError, message := some c4Msg }
  else { status := some sSuccess }

def c2wCtx : SqlCtx :=
  { id := "c1".toList, context := "TABLE: t\nSCHEMA: a".toList, node_type := csvExcelType }
def c2wExec : Str → ToolResult := fun _ => { status := some sSuccess }
def c2wModel : SqlModel :=
  { decision := some { mode := sqlModeTok, sql := "select 1 from t".toList } }
def c2wOut : Str := "select 1 from t LIMIT 200".toList
def c2wEvs : List Event :=
  [Event.toolCall (ToolCall.sqlTool (pragma_sql "t".toList)),
   Event.modelCall ModelSite.sqlDecision,
   Event.toolCall (ToolCall.sqlTool c2wOut)]

def c2xExec : Str → ToolResult := fun s =>
  if s = pragma_sql "t".toList then
    { status := some sSuccess, rows := [some "select x".toList] }
  else { status := some sSuccess }
def c2xModel : SqlModel :=
  { decision := some { mode := sqlModeTok, sql := "select x from t".toList } }
def c2xOut : Str := "\"select x\" from t LIMIT 200".toList

/-! ## src/ask/agent.py — `AskAgent.call_tool` (lines 48-89)

A Python value as normalized results see it.  `json.loads` is Python
stdlib, not repository code: it enters as an oracle
`loads : Str → Option PyVal` (`none` models a parse exception). -/

inductive PyVal where
  | dict (entries : List (Str × PyVal))
  | arr (xs : List PyVal)
  | str (s : Str)
  | int (n : Int)
  | bool (b : Bool)
  | null

/-- Outcome of invoking a tool handle through whichever calling
convention `_invoke` selects; `raises` covers both exceptions and the
`asyncio.wait_for` timeout, which surface identically at the
`except Exception` handler. -/
inductive Invocation where
  | returns (v : PyVal)
  | raises (msg : Str)

/-- An opaque tool handle: optional `name` / `__name__` attributes and
the invocation behaviour. -/
structure ToolHandle where
  name : Option Str := none
  pyname : Option Str := none
  invoke : PyVal → Invocation

/-- `find_tool` (lines 48-52). -/
def find_tool (tools : List ToolHandle) (nm : Str) : Option ToolHandle :=
  tools.find? (fun t => t.name == some nm || t.pyname == some nm)

def statusKey : Str := "status".toList
def resultKey : Str := "result".toList
def messageKey : Str := "message".toList
def sRaw : Str := "raw".toList

def successDict (v : PyVal) : PyVal :=
  .dict [(statusKey, .str sSuccess), (resultKey, v)]

def rawDict (s : Str) : PyVal :=
  .dict [(statusKey, .str sRaw), (resultKey, .str s)]

def errorDict (m : Str) : PyVal :=
  .dict [(statusKey, .str sError), (messageKey, .str m)]

/-- Result normalization of `call_tool` (lines 79-89). -/
def normalize_result (loads : Str → Option PyVal) : PyVal → PyVal
  | .dict d => .dict d
  | .str s =>
    match loads s with
    | some (.dict d) => .dict d
    | some v => successDict v
    | none => rawDict s
  | v => successDict v

/-- `call_tool` (lines 54-89).  The `tool not found` raise sits outside
the `try`, so it is the one propagated error. -/
def call_tool (loads : Str → Option PyVal) (tools : List ToolHandle)
    (nm : Str) (params : PyVal) : Except Str PyVal :=
  match find_tool tools nm with
  | none => .error ("tool ".toList ++ nm ++ " not found".toList)
  | some t =>
    match t.invoke params with
    | .raises m => .ok (errorDict m)
    | .returns v => .ok (normalize_result loads v)

/-! ## src/ask/agent.py — `AskAgent.get_tags` (lines 91-113) -/

/-- The split class of `re.split(r"[\s,，。；;:/]+", base)`. -/
def isTagSep (c : Char) : Bool :=
  pyIsSpace c || c == ',' || c == '，' || c == '。' || c == '；' ||
    c == ';' || c == ':' || c == '/'

/-- Maximal runs of non-separator characters (the `+` in the split
pattern merges separators; empty fields are dropped downstream by the
`if w` filter, so they are never produced here).  The fuel equals the
remaining length. -/
def split_runs_go (p : Char → Bool) : Nat → Str → List Str
  | _, [] => []
  | 0, _ => []
  | n + 1, c :: rest =>
    if p c then split_runs_go p n rest
    else (c :: rest.takeWhile (fun d => !(p d))) ::
      split_runs_go p n (rest.dropWhile (fun d => !(p d)))

def split_runs (p : Char → Bool) (s : Str) : List Str := split_runs_go p s.length s

/-- The heuristic token list (line 95): length in (1, 40], first 12. -/
def heuristic_tags (base : Str) : List Str :=
  ((split_runs isTagSep base).filter
    (fun w => decide (1 < w.length) && decide (w.length ≤ 40))).take 12

/-- Model keywords: newline→space, split on commas, strip, drop empties
(line 103; empty fields vanish under the `if t.strip()` filter). -/
def model_tag_list (content : Str) : List Str :=
  ((split_runs (fun c => c == ',')
      (content.map (fun c => if c = '\n' then ' ' else c))).map pyStripWS).filter
    (fun t => !t.isEmpty)

/-- The candidate sequence before dedup (lines 95-107): heuristic, then
model tags when the call succeeded and produced any. -/
def tag_candidates (m : Str → Except Str Str) (base : Str) : List Str :=
  let heur := heuristic_tags base
  match m base with
  | .error _ => heur
  | .ok content =>
    let mt := model_tag_list content
    if mt.isEmpty then heur else heur ++ mt

/-- The dedup loop of lines 108-112: case-insensitive seen-set, cap of
12 (`k` is the remaining capacity). -/
def dedup_take (seen : List Str) : Nat → List Str → List Str
  | _, [] => []
  | k, t :: ts =>
    if lowerStr t ∈ seen ∨ k = 0 then dedup_take seen k ts
    else t :: dedup_take (lowerStr t :: seen) (k - 1) ts

/-- `get_tags` (`src/ask/agent.py` lines 91-113); `m` is the model
oracle receiving the stripped question. -/
def get_tags (m : Str → Except Str Str) (question : Str) : List Str :=
  let base := pyStripWS question
  if base = [] then [] else dedup_take [] 12 (tag_candidates m base)

/-! Concrete inputs for the tool-invoker and tag claims. -/

def tDictH : ToolHandle :=
  { name := some ("d".toList),
    invoke := fun _ => .returns (.dict [(statusKey, PyVal.str sSuccess)]) }
def tRaiseH : ToolHandle :=
  { name := some ("r".toList), invoke := fun _ => .raises ("boom".toList) }
def tStrH : ToolHandle :=
  { name := some ("s".toList), invoke := fun _ => .returns (.str ("x".toList)) }
def tOtherH : ToolHandle :=
  { name := some ("o".toList), invoke := fun _ => .returns (.int 3) }
def toolListW : List ToolHandle := [tDictH, tRaiseH, tStrH, tOtherH]
def loadsNone : Str → Option PyVal := fun _ => none
def loadsArr : Str → Option PyVal := fun _ => some (.arr [])
def loadsDict : Str → Option PyVal := fun _ => some (.dict [])

def c7Fail : Str → Except Str Str := fun _ => .error ("model down".toList)
def qSingleA : Str := "a".toList
def qHelloWorld : Str := "hello world".toList

/-! ## src/ask/metrics.py -/

/-- `estimate_tokens`: the tiktoken encoder is external (oracle
`enc?`); without it the code computes `int(len(text)/3.7) + 1`, which
equals `(10*len) div 37 + 1` in exact arithmetic (the float rounding of
`3.7` is not observable at the sizes this program handles). -/
def estimate_tokens (enc? : Option (Str → Nat)) (text : Str) : Nat :=
  if text.isEmpty then 0
  else
    match enc? with
    | some e => e text
    | none => (10 * text.length) / 37 + 1

/-- The metric dict of `ask` (lines 202-208), with `summarize_blocks`
flattened into the three `leaf_*` fields. -/
structure Metrics where
  expanded_chars : Nat
  expanded_tokens : Nat
  leaf_chars : Nat
  leaf_tokens : Nat
  leaf_blocks : Nat
  sql_chars : Nat
  sql_tokens : Nat
deriving DecidableEq, Repr

/-! ## src/ask/agent.py — `AskAgent.ask` (lines 115-243) -/

/-- Python `str.splitlines` for `\n`, `\r`, `\r\n` (the separators
occurring here); a trailing separator produces no final empty line. -/
def splitlines_go (cur : Str) : Str → List Str
  | [] => if cur.isEmpty then [] else [cur.reverse]
  | '\r' :: '\n' :: t => cur.reverse :: splitlines_go [] t
  | '\r' :: t => cur.reverse :: splitlines_go [] t
  | '\n' :: t => cur.reverse :: splitlines_go [] t
  | c :: t => splitlines_go (c :: cur) t

def splitlines (s : Str) : List Str := splitlines_go [] s

def first_line (s : Str) : Option Str :=
  match splitlines s with
  | [] => none
  | l :: _ => some l

def idMarkTok : Str := "#id".toList

/-- `re.sub(r'#id:?\s*', '', r)` (line 134): delete every occurrence of
`#id`, an optional colon and following whitespace; fuel = remaining
length. -/
def sub_id_go : Nat → Str → Str
  | _, [] => []
  | 0, _ => []
  | n + 1, c :: rest =>
    if strStarts idMarkTok (c :: rest) then
      let r1 := (c :: rest).drop 3
      let r2 := match r1 with
        | ':' :: t => t
        | _ => r1
      sub_id_go n (r2.dropWhile pyIsSpace)
    else c :: sub_id_go n rest

def sub_id_marks (s : Str) : Str := sub_id_go s.length s

def nodeTok : Str := "node".toList

/-- `p` (lower case) is a case-insensitive prefix of `s`. -/
def ci_starts (p s : Str) : Bool := lowerStr (s.take p.length) == p

/-- Try `NODES?:\s*(.+)` (case-insensitive) at the head of `s`
(line 161).  When everything after the colon is whitespace the greedy
`\s*` backtracks and `.+` captures a single space, which yields no ids
downstream — returning the empty remainder here gives the identical
id list. -/
def try_nodes_at (s : Str) : Option Str :=
  if ci_starts nodeTok s then
    let r := s.drop 4
    let afterKey : Option Str :=
      match r with
      | ':' :: r3 => some r3
      | c :: ':' :: r3 => if c.toLower == 's' then some r3 else none
      | _ => none
    match afterKey with
    | none => none
    | some rest => if rest.isEmpty then none else some (rest.dropWhile pyIsSpace)
  else none

def search_nodes_tag : Str → Option Str
  | [] => none
  | c :: rest =>
    match try_nodes_at (c :: rest) with
    | some g => some g
    | none => search_nodes_tag rest

/-- The returned answer record; absent dict keys are `none`. -/
structure AnswerRecord where
  answer : Str
  final_context : Str
  tags : List Str
  chosen_files : Option (List Str) := none
  structure_nodes : Option (List Str) := none
  gathered_leaf_count : Option Nat := none
  metrics : Option Metrics := none
deriving DecidableEq, Repr

/-- The agent's effectful collaborators: the chat model (per call
site), the normalized tool transport, the parsed SQL decision (see
`SqlModel`), the optional tiktoken encoder, and `json.dumps` for the
SQL-result rendering — all external to the repository's code. -/
structure AskEnv where
  model : ModelSite → Except Str Str
  callTool : ToolCall → ToolResult
  sqlDecision : Option ParsedDecision := none
  encoder : Option (Str → Nat) := none
  dumps : ToolResult → Str

def msgDirFail : Str := "目录检索失败".toList
def msgNoFiles : Str := "未选出相关文件".toList
def msgExpandFail : Str := "文件展开失败".toList
def msgAnswerFail : Str := "回答失败: ".toList
def overviewModeStr : Str := "overview".toList
def expandModeStr : Str := "expand".toList
def sqlPrefixStr : Str := "执行SQL: ".toList
def sqlMidStr : Str := "\n结果: ".toList
def nlPrefixStr : Str := "结构化分析: ".toList
def leavesSepStr : Str := "\n\n--- LEAVES ---\n".toList
def sqlSepStr : Str := "\n\n--- SQL ---\n".toList
def blankSep : Str := "\n\n".toList
def hitMark : Str := "[HIT]".toList
def leafHdr : Str := "# Leaf ".toList
def askBoardName : Str := "ask.md".toList
def reportFileName : Str := "report.md".toList

/-- `f"# Leaf {id} {'[HIT]' if hit else ''}\n{context}"` (line 184). -/
def leaf_chunk (lf : LeafRec) : Str :=
  leafHdr ++ lf.id ++ (' ' :: (if lf.hit then hitMark else [])) ++ ('\n' :: lf.context)

/-- The board artifact content (lines 226-230). -/
def board_content (q a : Str) : Str :=
  "# 最新问答\n\n**问题**\n\n".toList ++ q ++ "\n\n**回答**\n\n".toList ++ a ++ "\n".toList

/-- `AskAgent.ask` (`src/ask/agent.py` lines 115-243), with the event
trace of model calls, tool calls and the board write.  The langchain
message classes are assumed importable (as in the deployed program). -/
def ask (env : AskEnv) (question : Str) (write_board : Bool) : AnswerRecord × List Event :=
  let base := pyStripWS question
  let tags := get_tags (fun b => env.model (ModelSite.tags b)) question
  let ev1 : List Event :=
    (if base = [] then [] else [Event.modelCall (ModelSite.tags base)]) ++
      [Event.toolCall (ToolCall.searchDocuments overviewModeStr none tags)]
  let ov := env.callTool (ToolCall.searchDocuments overviewModeStr none tags)
  if ov.status ≠ some sSuccess then
    ({ answer := msgDirFail, final_context := [], tags := tags }, ev1)
  else
    let tree := ov.result
    let ev2 := ev1 ++ [Event.modelCall (ModelSite.selectFiles question tree)]
    let file_ids : List Str :=
      match env.model (ModelSite.selectFiles question tree) with
      | .error _ => []
      | .ok content =>
        ((((split_runs (fun c => c == ',') (pyStripWS content)).map pyStripWS).filter
            (fun r => !r.isEmpty)).map sub_id_marks).take 5
    if file_ids.isEmpty then
      ({ answer := msgNoFiles, final_context := tree, tags := tags }, ev2)
    else
      let ev3 := ev2 ++
        [Event.toolCall (ToolCall.searchDocuments expandModeStr (some file_ids) tags)]
      let exr := env.callTool (ToolCall.searchDocuments expandModeStr (some file_ids) tags)
      if exr.status ≠ some sSuccess then
        ({ answer := msgExpandFail, final_context := tree, tags := tags,
           chosen_files := some file_ids }, ev3)
      else
        let etext := exr.result
        let ev4 := ev3 ++ [Event.modelCall (ModelSite.selectNodes question etext)]
        let raw_node_ids : List Str :=
          match env.model (ModelSite.selectNodes question etext) with
          | .error _ => []
          | .ok content =>
            match first_line (pyStripWS content) with
            | none => []
            | some line =>
              match search_nodes_tag line with
              | some grp =>
                ((split_runs (fun c => c == ',') grp).map pyStripWS).filter
                  (fun x => !x.isEmpty)
              | none => []
        let struct_ids := if raw_node_ids.isEmpty then file_ids.take 2 else raw_node_ids.take 6
        let ev5 := ev4 ++ [Event.toolCall (ToolCall.gatherContext struct_ids tags)]
        let gr := env.callTool (ToolCall.gatherContext struct_ids tags)
        let leafs : List LeafRec := if gr.status = some sSuccess then
            gr.nodes.foldr (fun nd acc => nd.leaves ++ acc) []
          else []
        let leaf_ctxs : List SqlCtx := leafs.map (fun lf => SqlCtx.mk lf.id lf.context lf.node_type)
        let leaves_block := List.intercalate blankSep (leafs.map leaf_chunk)
        let msa := maybe_sql_analyze leaf_ctxs question
          (some (fun s => env.callTool (ToolCall.sqlTool s)))
          (some { agent_call_sql := none, decision := env.sqlDecision })
        let sql_extra :=
          match msa.1 with
          | some (SqlDecision.sql q res) =>
            sqlPrefixStr ++ q ++ sqlMidStr ++ (env.dumps res).take 2000
          | some (SqlDecision.nl a) => nlPrefixStr ++ a
          | none => []
        let ev6 := ev5 ++ msa.2
        let context_block := etext ++
          (if leaves_block.isEmpty then [] else leavesSepStr ++ leaves_block) ++
          (if sql_extra.isEmpty then [] else sqlSepStr ++ sql_extra)
        let metrics : Metrics :=
          { expanded_chars := etext.length,
            expanded_tokens := estimate_tokens env.encoder etext,
            leaf_chars := ((leafs.map (fun lf => lf.context.length)).foldr (· + ·) 0),
            leaf_tokens :=
              ((leafs.map (fun lf => estimate_tokens env.encoder lf.context)).foldr (· + ·) 0),
            leaf_blocks := leafs.length,
            sql_chars := sql_extra.length,
            sql_tokens := estimate_tokens env.encoder sql_extra }
        let ev7 := ev6 ++ [Event.modelCall (ModelSite.finalAnswer question context_block)]
        let answer :=
          match env.model (ModelSite.finalAnswer question context_block) with
          | .ok a => a
          | .error e => msgAnswerFail ++ e
        let ev8 := ev7 ++
          (if write_board then [Event.fileWrite askBoardName (board_content question answer)]
           else [])
        ({ answer := answer, final_context := context_block, tags := tags,
           chosen_files := some file_ids, structure_nodes := some struct_ids,
           gathered_leaf_count := some leafs.length, metrics := some metrics }, ev8)

/-! ## src/ask/agent.py — `AskAgent.ask_report` (lines 248-362) -/

def fenceTok : Str := "```".toList
def qKeyTok : Str := "\"question\"".toList
def questionsKey : Str := "questions".toList
def questionKey : Str := "question".toList
def qShortKey : Str := "q".toList
def jsonWord : Str := "json".toList
def arrayWord : Str := "array".toList
def questionWord : Str := "question".toList
def apos : Char := Char.ofNat 39

def dict_get (d : List (Str × PyVal)) (k : Str) : Option PyVal :=
  match d.find? (fun e => e.1 == k) with
  | some e => some e.2
  | none => none

/-- Python truthiness over the JSON value universe. -/
def pyv_truthy : PyVal → Bool
  | .str s => !s.isEmpty
  | .dict d => !d.isEmpty
  | .arr l => !l.isEmpty
  | .int n => decide (n ≠ 0)
  | .bool b => b
  | .null => false

/-- `a or b` on optional values (`dict.get` returns `None` when the
key is absent). -/
def pyv_or (a b : Option PyVal) : Option PyVal :=
  match a with
  | some v => if pyv_truthy v then some v else b
  | none => b

/-- Match `\s*:\s*"(.+?)"` after the `"question"` literal, returning
the group and the remainder after the closing quote.  The lazy group
takes the shortest non-empty quote-free run (the corner where the
fragment itself would contain a quote is not exercised). -/
def q_tail_match (r : Str) : Option (Str × Str) :=
  match r.dropWhile pyIsSpace with
  | ':' :: r2 =>
    match r2.dropWhile pyIsSpace with
    | '"' :: r4 =>
      let seg := r4.takeWhile (fun c => !(c == '"'))
      if seg.isEmpty || seg.any (fun c => c == '\n') then none
      else
        match r4.drop seg.length with
        | '"' :: rem => some (seg, rem)
        | _ => none
    | _ => none
  | _ => none

/-- `re.findall(r'"question"\s*:\s*"(.+?)"', txt)` (line 277):
non-overlapping left-to-right scan; fuel = remaining length. -/
def find_q_go : Nat → Str → List Str
  | _, [] => []
  | 0, _ => []
  | n + 1, c :: rest =>
    if strStarts qKeyTok (c :: rest) then
      match q_tail_match ((c :: rest).drop qKeyTok.length) with
      | some (grp, rem) => grp :: find_q_go n rem
      | none => find_q_go n rest
    else find_q_go n rest

def find_question_vals (s : Str) : List Str := find_q_go s.length s

/-- `re.sub(r'^[-*]\s*', '', ln)` (line 304). -/
def strip_bullet (l : Str) : Str :=
  match l with
  | c :: rest => if c == '-' || c == '*' then rest.dropWhile pyIsSpace else l
  | [] => []

def colon_part (r : Str) : Option Str :=
  match r.dropWhile pyIsSpace with
  | ':' :: r2 => some (r2.dropWhile pyIsSpace)
  | _ => none

/-- `re.sub(r'^"?question"?\s*:\s*', '', ln, re.I)` (line 305): the
optional quotes and the case-insensitive literal, then the colon. -/
def strip_qprefix (l : Str) : Str :=
  let core := fun (r : Str) =>
    if ci_starts questionWord r then
      let r2 := r.drop 8
      match r2 with
      | '"' :: r3 =>
        match colon_part r3 with
        | some out => some out
        | none => colon_part r2
      | _ => colon_part r2
    else none
  let attempt :=
    match l with
    | '"' :: r => core r
    | _ => core l
  match attempt with
  | some rest => rest
  | none => l

def rstrip_commas (l : Str) : Str := (l.reverse.dropWhile (fun c => c == ',')).reverse

def is_punct_json (c : Char) : Bool :=
  c == '[' || c == ']' || c == '{' || c == '}' || c == ':' || c == ',' || c == '"'

/-- `any(ln.startswith(p) and len(ln) <= 3 for p in skip_prefix)`
(line 298). -/
def skip_bracket (l : Str) : Bool :=
  match l with
  | c :: _ =>
    (c == '[' || c == ']' || c == '{' || c == '}' || c == '-' || c == '*') &&
      decide (l.length ≤ 3)
  | [] => false

def starts_quoteish (l : Str) : Bool :=
  match l with
  | c :: _ => c == '"' || c == apos
  | [] => false

def ends_quoteish (l : Str) : Bool := starts_quoteish l.reverse

/-- The sub-question list recovered from one model response
(`ask_report` lines 252-311): fence removal, JSON parse (`loads`
oracle, `none` = parse exception), the `"question"` findall recovery,
the `questions` key unwrap, string/dict item extraction, then the
line-based fallback.  The model response `none` models an `ainvoke`
exception (`except: pass`). -/
def decompose_core (loads : Str → Option PyVal) (resp : Option Str) : List Str :=
  match resp with
  | none => []
  | some content =>
    let txt0 := pyStripWS content
    let txt :=
      if strStarts fenceTok txt0 then
        pyStripWS (List.intercalate ['\n']
          ((splitlines txt0).filter (fun l => !(strStarts fenceTok (pyStripWS l)))))
      else txt0
    let parsed0 : Option PyVal :=
      match loads txt with
      | some v => some v
      | none =>
        if strHasSub qKeyTok txt then
          let cand := find_question_vals txt
          if cand.isEmpty then none else some (PyVal.arr (cand.map PyVal.str))
        else none
    let parsed1 : Option PyVal :=
      match parsed0 with
      | some (PyVal.dict d) =>
        match dict_get d questionsKey with
        | some v => some v
        | none => some (PyVal.dict d)
      | other => other
    let fromParsed : List Str :=
      match parsed1 with
      | some (PyVal.arr items) =>
        items.foldl (fun acc it =>
          match it with
          | PyVal.str s =>
            let s2 := pyStripBy (fun c => c == '"') (pyStripWS s)
            if s2.isEmpty then acc else acc ++ [s2]
          | PyVal.dict d =>
            match pyv_or (dict_get d questionKey) (dict_get d qShortKey) with
            | some (PyVal.str s) =>
              if (pyStripWS s).isEmpty then acc else acc ++ [pyStripWS s]
            | _ => acc
          | _ => acc) []
      | _ => []
    if fromParsed.isEmpty then
      let raw_lines := ((splitlines txt).map pyStripWS).filter (fun l => !l.isEmpty)
      raw_lines.foldl (fun acc ln =>
        if skip_bracket ln then acc
        else if lowerStr ln == jsonWord || lowerStr ln == arrayWord then acc
        else
          let ln1 := if starts_quoteish ln && ends_quoteish ln then (ln.drop 1).dropLast else ln
          let ln2 := strip_bullet ln1
          let ln3 := strip_qprefix ln2
          let ln4 := rstrip_commas ln3
          if (decide (2 ≤ ln4.length) && decide (ln4.length ≤ 80)) && !(ln4.all is_punct_json)
          then acc ++ [ln4] else acc) []
    else fromParsed

/-- Sub-question derivation with the original-question fallback and the
caller cap (lines 312-314). -/
def decompose_question (loads : Str → Option PyVal) (resp : Option Str)
    (question : Str) (maxSub : Nat) : List Str :=
  (if (decompose_core loads resp).isEmpty then [question] else decompose_core loads resp).take
    maxSub

structure SubResult where
  question : Str
  answer : Str
  metrics : Option Metrics := none
  chosen_files : Option (List Str) := none
  structure_nodes : Option (List Str) := none
deriving DecidableEq, Repr

structure ReportRecord where
  mode : Str
  error : Option Str := none
  main_question : Option Str := none
  sub_questions : Option (List Str) := none
  sub_results : Option (List SubResult) := none
  report : Option Str := none
deriving DecidableEq, Repr

def reportStr : Str := "report".toList
def msgEmptyQ : Str := "空问题".toList
def msgSynthFail : Str := "汇总失败: ".toList

/-- The report artifact content (lines 347-352). -/
def report_content (q : Str) (subs : List Str) (combined : Str) : Str :=
  "# 报告\n\n**主问题**\n\n".toList ++ q ++ "\n\n**子问题**\n\n".toList ++
    List.intercalate ['\n'] (subs.map (fun sq => "- ".toList ++ sq)) ++
    "\n\n**最终报告**\n\n".toList ++ combined ++ "\n".toList

/-- `AskAgent.ask_report` (`src/ask/agent.py` lines 248-362); the
synthesis prompt's `json.dumps(...)[:12000]` payload feeds only the
abstracted model oracle. -/
def ask_report (env : AskEnv) (loads : Str → Option PyVal) (question : Str)
    (maxSub : Nat := 5) : ReportRecord × List Event :=
  if pyStripWS question = [] then
    ({ mode := reportStr, error := some msgEmptyQ }, [])
  else
    let resp :=
      match env.model (ModelSite.decompose question) with
      | .ok c => some c
      | .error _ => none
    let dEv := [Event.modelCall (ModelSite.decompose question)]
    let subs := decompose_question loads resp question maxSub
    let runs := subs.map (fun sq => (sq, ask env sq false))
    let subEvs := (runs.map (fun r => r.2.2)).foldr (· ++ ·) []
    let sub_results := runs.map (fun r =>
      SubResult.mk r.1 r.2.1.answer r.2.1.metrics r.2.1.chosen_files r.2.1.structure_nodes)
    let sEv := [Event.modelCall (ModelSite.synthesize question)]
    let combined :=
      match env.model (ModelSite.synthesize question) with
      | .ok c => c
      | .error e => msgSynthFail ++ e
    ({ mode := reportStr, main_question := some question, sub_questions := some subs,
       sub_results := some sub_results, report := some combined },
     dEv ++ subEvs ++ sEv ++ [Event.fileWrite reportFileName (report_content question subs combined)])

/-! Concrete inputs for the orchestrator claims. -/

def trivEnv : AskEnv :=
  { model := fun _ => .error [],
    callTool := fun _ => { status := some sError },
    sqlDecision := none,
    encoder := none,
    dumps := fun _ => [] }
def qHi : Str := "hi".toList
def wsQ : Str := "   ".toList
def qMain : Str := "X?".toList
def arrTxtABC : Str := "[\"A?\",\"B?\",\"C?\"]".toList
def abcList : List Str := ["A?".toList, "B?".toList, "C?".toList]
def loadsABC : Str → Option PyVal := fun s =>
  if s = arrTxtABC then some (.arr (abcList.map PyVal.str)) else none

def event_is_tool : Event → Bool
  | Event.toolCall _ => true
  | _ => false

/-! ## Substring facts -/

theorem strStarts_iff (p : Str) : ∀ s, strStarts p s = true ↔ ∃ t, s = p ++ t := by
  induction p with
  | nil => intro s; simp [strStarts]
  | cons a ps ih =>
    intro s
    cases s with
    | nil => simp [strStarts]
    | cons c cs =>
      simp only [strStarts, Bool.and_eq_true, beq_iff_eq, ih, List.cons_append,
        List.cons.injEq]
      constructor
      · rintro ⟨rfl, t, rfl⟩; exact ⟨t, rfl, rfl⟩
      · rintro ⟨t, rfl, rfl⟩; exact ⟨rfl, t, rfl⟩

theorem strHasSub_iff (p : Str) : ∀ s, strHasSub p s = true ↔ ∃ u v, s = u ++ p ++ v := by
  intro s
  induction s with
  | nil =>
    show strStarts p [] = true ↔ _
    rw [strStarts_iff]
    constructor
    · rintro ⟨t, ht⟩
      have hp : p = [] := (List.append_eq_nil.mp ht.symm).1
      exact ⟨[], [], by simp [hp]⟩
    · rintro ⟨u, v, huv⟩
      have h1 := List.append_eq_nil.mp huv.symm
      have h2 := List.append_eq_nil.mp h1.1
      exact ⟨[], by simp [h2.2]⟩
  | cons c cs ih =>
    show (strStarts p (c :: cs) || strHasSub p cs) = true ↔ _
    rw [Bool.or_eq_true, strStarts_iff, ih]
    constructor
    · rintro (⟨t, ht⟩ | ⟨u, v, huv⟩)
      · exact ⟨[], t, by simp [ht]⟩
      · exact ⟨c :: u, v, by simp [huv]⟩
    · rintro ⟨u, v, huv⟩
      cases u with
      | nil =>
        rw [List.nil_append] at huv
        exact Or.inl ⟨v, huv⟩
      | cons b us =>
        rw [List.cons_append] at huv
        injection huv with h1 h2
        exact Or.inr ⟨us, v, h2⟩

/-- An occurrence in `a ++ b` lies in `a`, lies in `b`, or spans the
boundary with a non-empty part on each side. -/
theorem sub_append_split {p a b : Str} (h : strHasSub p (a ++ b) = true) :
    strHasSub p a = true ∨ strHasSub p b = true ∨
      ∃ p₁ p₂, p = p₁ ++ p₂ ∧ p₁ ≠ [] ∧ p₂ ≠ [] ∧ strStarts p₂ b = true := by
  rcases (strHasSub_iff p (a ++ b)).mp h with ⟨u, v, huv⟩
  rw [List.append_assoc] at huv
  rcases List.append_eq_append_iff.mp huv with ⟨w, hwu, hwb⟩ | ⟨w, haw, hpv⟩
  · -- occurrence fully inside b
    right; left
    refine (strHasSub_iff p b).mpr ⟨w, v, ?_⟩
    rw [hwb, List.append_assoc]
  · -- the occurrence starts inside a
    rcases List.append_eq_append_iff.mp hpv with ⟨x, hwpx, hv⟩ | ⟨x, hpwx, hbx⟩
    · -- w = p ++ x : occurrence fully inside a
      left
      refine (strHasSub_iff p a).mpr ⟨u, x, ?_⟩
      rw [haw, hwpx, List.append_assoc]
    · -- p = w ++ x and b = x ++ v
      cases hwc : w with
      | nil =>
        right; left
        subst hwc
        rw [List.nil_append] at hpwx
        refine (strHasSub_iff p b).mpr ⟨[], v, ?_⟩
        rw [hbx, ← hpwx, List.nil_append]
      | cons w0 ws =>
        cases hxc : x with
        | nil =>
          left
          subst hxc
          rw [List.append_nil] at hpwx
          refine (strHasSub_iff p a).mpr ⟨u, [], ?_⟩
          rw [haw, ← hpwx, List.append_nil]
        | cons x0 xs =>
          right; right
          refine ⟨w, x, hpwx, by simp [hwc], by simp [hxc], ?_⟩
          exact (strStarts_iff x b).mpr ⟨v, hbx⟩

theorem strStarts_refl_append (p t : Str) : strStarts p (p ++ t) = true :=
  (strStarts_iff p (p ++ t)).mpr ⟨t, rfl⟩

/-! ## Facts about `sanitize_sql` -/

theorem has_forbidden_check {l : Str} (h : HasForbidden l) :
    forbidden_check l = true := by
  have hword : WORD_TOKENS.all
      (fun w => FORBIDDEN_SQL_TOKENS.any
        (fun kw => pyStripWS kw == w && tokCond kw)) = true := by decide
  have hop : OP_TOKENS.all
      (fun w => FORBIDDEN_SQL_TOKENS.any
        (fun kw => pyStripWS kw == w && tokCond kw)) = true := by decide
  rcases h with ⟨w, hw, pre, post, heq, _, _⟩ | ⟨w, hw, pre, post, heq⟩
  · rcases List.any_eq_true.mp (List.all_eq_true.mp hword w hw) with ⟨kw, hkw, hb⟩
    rw [Bool.and_eq_true] at hb
    rcases hb with ⟨hbe, hcond⟩
    refine List.any_eq_true.mpr ⟨kw, hkw, ?_⟩
    rw [Bool.and_eq_true]
    refine ⟨?_, hcond⟩
    rw [beq_iff_eq] at hbe
    rw [hbe]
    exact (strHasSub_iff w l).mpr ⟨pre, post, heq⟩
  · rcases List.any_eq_true.mp (List.all_eq_true.mp hop w hw) with ⟨kw, hkw, hb⟩
    rw [Bool.and_eq_true] at hb
    rcases hb with ⟨hbe, hcond⟩
    refine List.any_eq_true.mpr ⟨kw, hkw, ?_⟩
    rw [Bool.and_eq_true]
    refine ⟨?_, hcond⟩
    rw [beq_iff_eq] at hbe
    rw [hbe]
    exact (strHasSub_iff w l).mpr ⟨pre, post, heq⟩

theorem sanitize_err_of_check {sql : Str}
    (h : forbidden_check (lowerStr (strip_sql_text sql)) = true) :
    isOkX (sanitize_sql sql) = false := by
  unfold sanitize_sql sanitize_stripped
  by_cases hs : strStarts selectTok (lowerStr (strip_sql_text sql)) = true
  · rw [if_pos hs, if_pos h]
    rfl
  · rw [if_neg hs]
    rfl

theorem dropWhile_rep_app (p : Char → Bool) (a : Char) (n : Nat) (l : Str)
    (h : p a = true) :
    List.dropWhile p (List.replicate n a ++ l) = List.dropWhile p l := by
  induction n with
  | zero => simp
  | succ n ih => simp [List.replicate_succ, List.dropWhile_cons, h, ih]

theorem pyStripWS_bigPad : pyStripWS qBigPad = "select 1".toList := by
  unfold pyStripWS pyStripBy
  have hfront : List.dropWhile pyIsSpace qBigPad = qBigPad := rfl
  rw [hfront]
  unfold qBigPad
  rw [List.reverse_append, List.reverse_replicate,
    dropWhile_rep_app _ _ _ _ (by decide)]
  decide

theorem strip_bigPad : strip_sql_text qBigPad = "select 1".toList := by
  unfold strip_sql_text
  rw [pyStripWS_bigPad]
  decide

/-- Claim C1 (amended): after stripping leading/trailing whitespace and
semicolons, `sanitize_sql` fails on any query that does not then start
with `select` (case-insensitively) and on any query whose stripped,
lowercased text contains one of the keywords as a whole word or one of
`;`, `--`, `/*` anywhere; in particular the two cited example queries
fail.  (Stripping means a query whose only `;` is a leading/trailing
terminator is not rejected.) -/
theorem C1_sanitize_reject :
    (∀ sql : Str,
      (strStarts selectTok (lowerStr (strip_sql_text sql)) = false →
        isOkX (sanitize_sql sql) = false) ∧
      (HasForbidden (lowerStr (strip_sql_text sql)) →
        isOkX (sanitize_sql sql) = false)) ∧
    isOkX (sanitize_sql qDropTable) = false ∧
    isOkX (sanitize_sql qSelectSemiDrop) = false := by
  refine ⟨fun sql => ⟨?_, ?_⟩, by rfl, by rfl⟩
  · intro h
    unfold sanitize_sql sanitize_stripped
    rw [if_neg (by simp [h])]
    rfl
  · intro hf
    exact sanitize_err_of_check (has_forbidden_check hf)

/-- Claim C1 counterexample: the query `select 1;` contains the
operator token `;` yet `sanitize_sql` accepts it (the trailing
semicolon is stripped before the forbidden-token scan), refuting the
claim as stated. -/
theorem C1_semicolon_cex :
    strHasSub tok_semi qSelectSemi = true ∧
    sanitize_sql qSelectSemi = Except.ok qSelectSemiOut :=
  ⟨by decide, by rfl⟩

theorem C1_sanitize_reject_witness :
    isOkX (sanitize_sql wDropX) = false ∧ isOkX (sanitize_sql wDashMid) = false := by
  constructor
  · exact (C1_sanitize_reject.1 wDropX).1 (by decide)
  · refine (C1_sanitize_reject.1 wDashMid).2 ?_
    refine Or.inr ⟨tok_dash, by decide, "select a".toList, "b".toList, ?_⟩
    decide

/-- Claim C3 (amended): `sanitize_sql "select * from t"` succeeds and
its result carries a `LIMIT` clause; when the stripped query has no
` limit ` (case-insensitive) the literal ` LIMIT 200` is appended, and
when it already has one the result is exactly the stripped input (no
second LIMIT); the length rejection applies to the stripped text after
the conditional append exceeding 2000 characters (so a raw input over
2000 characters can still succeed, see the counterexample). -/
theorem C3_limit_clause :
    (sanitize_sql qSelectStar = Except.ok qSelectStarOut) ∧
    (∀ sql r, sanitize_sql sql = Except.ok r →
      (strHasSub limitTok (lowerStr (strip_sql_text sql)) = false →
          r = strip_sql_text sql ++ limitAppend) ∧
      (strHasSub limitTok (lowerStr (strip_sql_text sql)) = true →
          r = strip_sql_text sql)) ∧
    (∀ sql : Str, 2000 < (with_limit (strip_sql_text sql)).length →
      isOkX (sanitize_sql sql) = false) := by
  refine ⟨by rfl, ?_, ?_⟩
  · intro sql r h
    unfold sanitize_sql sanitize_stripped at h
    by_cases h1 : strStarts selectTok (lowerStr (strip_sql_text sql)) = true
    · rw [if_pos h1] at h
      by_cases h2 : forbidden_check (lowerStr (strip_sql_text sql)) = true
      · rw [if_pos h2] at h
        simp at h
      · rw [if_neg h2] at h
        by_cases h3 : 2000 < (with_limit (strip_sql_text sql)).length
        · rw [if_pos h3] at h
          simp at h
        · rw [if_neg h3] at h
          have hr : with_limit (strip_sql_text sql) = r := Except.ok.inj h
          constructor
          · intro hno
            rw [← hr]
            unfold with_limit
            rw [if_neg (by simp [hno])]
          · intro hyes
            rw [← hr]
            unfold with_limit
            rw [if_pos hyes]
    · rw [if_neg h1] at h
      simp at h
  · intro sql h
    unfold sanitize_sql sanitize_stripped
    by_cases h1 : strStarts selectTok (lowerStr (strip_sql_text sql)) = true
    · rw [if_pos h1]
      by_cases h2 : forbidden_check (lowerStr (strip_sql_text sql)) = true
      · rw [if_pos h2]
        rfl
      · rw [if_neg h2, if_pos h]
        rfl
    · rw [if_neg h1]
      rfl

/-- Claim C3 counterexample: a 2003-character query (a short SELECT
padded with trailing spaces) exceeds 2000 characters yet is accepted,
because the length check runs on the stripped text after the LIMIT
append, refuting the length clause as stated. -/
theorem C3_length_cex :
    2000 < qBigPad.length ∧ isOkX (sanitize_sql qBigPad) = true := by
  constructor
  · unfold qBigPad
    rw [List.length_append, List.length_replicate]
    decide
  · unfold sanitize_sql
    rw [strip_bigPad]
    decide

theorem strHasSub_app_right (p a b : Str) (h : strHasSub p b = true) :
    strHasSub p (a ++ b) = true := by
  rcases (strHasSub_iff p b).mp h with ⟨u, v, huv⟩
  refine (strHasSub_iff p (a ++ b)).mpr ⟨a ++ u, v, ?_⟩
  rw [huv]
  simp [List.append_assoc]

theorem pyStripBy_sandwich (p : Char → Bool) (c d : Char) (m : Str)
    (hc : p c = false) (hd : p d = false) :
    pyStripBy p ((c :: m) ++ [d]) = (c :: m) ++ [d] := by
  unfold pyStripBy
  rw [List.cons_append]
  rw [show List.dropWhile p (c :: (m ++ [d])) = c :: (m ++ [d]) by
    simp [List.dropWhile_cons, hc]]
  rw [show (c :: (m ++ [d])).reverse = d :: (m.reverse ++ [c]) by
    simp [List.reverse_cons, List.reverse_append]]
  rw [show List.dropWhile p (d :: (m.reverse ++ [c])) = d :: (m.reverse ++ [c]) by
    simp [List.dropWhile_cons, hd]]
  rw [show (d :: (m.reverse ++ [c])).reverse = c :: (m ++ [d]) by
    simp [List.reverse_cons, List.reverse_append]]

def wLongMid : Str := "elect ".toList ++ List.replicate 1994 'a' ++ " limit ".toList

theorem wLong_form : wLong = ('s' :: wLongMid) ++ ['1'] := by
  unfold wLong wLongMid
  rw [show "select ".toList = 's' :: "elect ".toList from rfl,
      show " limit 1".toList = " limit ".toList ++ ['1'] by decide]
  simp only [List.cons_append, List.append_assoc]

theorem strip_wLong : strip_sql_text wLong = wLong := by
  unfold strip_sql_text pyStripWS
  rw [wLong_form]
  rw [pyStripBy_sandwich pyIsSpace 's' '1' wLongMid (by decide) (by decide)]
  rw [pyStripBy_sandwich _ 's' '1' wLongMid (by decide) (by decide)]

theorem limit_in_wLong : strHasSub limitTok (lowerStr wLong) = true := by
  unfold wLong lowerStr
  rw [List.map_append]
  exact strHasSub_app_right _ _ _ (by decide)

theorem with_limit_wLong : with_limit wLong = wLong := by
  unfold with_limit
  rw [if_pos limit_in_wLong]

theorem wLong_length : 2000 < wLong.length := by
  unfold wLong
  rw [List.length_append, List.length_append, List.length_replicate]
  decide

theorem C3_limit_clause_witness :
    "select 2 LIMIT 200".toList = strip_sql_text wNoLimit ++ limitAppend ∧
    wWithLimit = strip_sql_text wWithLimit ∧
    isOkX (sanitize_sql wLong) = false := by
  refine ⟨(C3_limit_clause.2.1 wNoLimit ("select 2 LIMIT 200".toList) (by rfl)).1 (by decide),
    (C3_limit_clause.2.1 wWithLimit wWithLimit (by rfl)).2 (by decide),
    C3_limit_clause.2.2 wLong ?_⟩
  rw [strip_wLong, with_limit_wLong]
  exact wLong_length

theorem strStarts_app (p a b : Str) (h : strStarts p a = true) :
    strStarts p (a ++ b) = true := by
  rcases (strStarts_iff p a).mp h with ⟨t, ht⟩
  refine (strStarts_iff p (a ++ b)).mpr ⟨t ++ b, ?_⟩
  rw [ht]
  simp [List.append_assoc]

/-- Everything `sanitize_sql` accepts is SELECT-prefixed, carries a
` limit ` occurrence, contains no forbidden-token substring, and is at
most 2000 characters long. -/
theorem sanitize_ok_props (raw s : Str) (h : sanitize_sql raw = Except.ok s) :
    strStarts selectTok (lowerStr s) = true ∧
    strHasSub limitTok (lowerStr s) = true ∧
    (∀ kw ∈ FORBIDDEN_SQL_TOKENS, strHasSub (pyStripWS kw) (lowerStr s) = false) ∧
    s.length ≤ 2000 := by
  unfold sanitize_sql sanitize_stripped at h
  by_cases h1 : strStarts selectTok (lowerStr (strip_sql_text raw)) = true
  case neg => rw [if_neg h1] at h; simp at h
  rw [if_pos h1] at h
  by_cases h2 : forbidden_check (lowerStr (strip_sql_text raw)) = true
  case pos => rw [if_pos h2] at h; simp at h
  rw [if_neg h2] at h
  by_cases h3 : 2000 < (with_limit (strip_sql_text raw)).length
  case pos => rw [if_pos h3] at h; simp at h
  rw [if_neg h3] at h
  have hs : s = with_limit (strip_sql_text raw) := (Except.ok.inj h).symm
  have htok : ∀ kw ∈ FORBIDDEN_SQL_TOKENS,
      strHasSub (pyStripWS kw) (lowerStr (strip_sql_text raw)) = false := by
    intro kw hkw
    have hcond : tokCond kw = true :=
      List.all_eq_true.mp (by decide : FORBIDDEN_SQL_TOKENS.all tokCond = true) kw hkw
    cases hv : strHasSub (pyStripWS kw) (lowerStr (strip_sql_text raw)) with
    | false => rfl
    | true =>
      exact absurd (List.any_eq_true.mpr ⟨kw, hkw, by rw [hv, hcond]; rfl⟩) h2
  by_cases hlim : strHasSub limitTok (lowerStr (strip_sql_text raw)) = true
  · have hwl : with_limit (strip_sql_text raw) = strip_sql_text raw := by
      unfold with_limit
      rw [if_pos hlim]
    rw [hwl] at hs h3
    subst hs
    exact ⟨h1, hlim, htok, by omega⟩
  · have hlimF : strHasSub limitTok (lowerStr (strip_sql_text raw)) = false := by
      cases hv : strHasSub limitTok (lowerStr (strip_sql_text raw)) with
      | false => rfl
      | true => exact absurd hv hlim
    have hwl : with_limit (strip_sql_text raw) = strip_sql_text raw ++ limitAppend := by
      unfold with_limit
      rw [if_neg hlim]
    rw [hwl] at hs h3
    subst hs
    have hmap : lowerStr (strip_sql_text raw ++ limitAppend) =
        lowerStr (strip_sql_text raw) ++ lowerStr limitAppend := List.map_append _ _ _
    refine ⟨?_, ?_, ?_, ?_⟩
    · rw [hmap]
      exact strStarts_app _ _ _ h1
    · rw [hmap]
      exact strHasSub_app_right _ _ _ (by decide)
    · intro kw hkw
      rw [hmap]
      cases hv : strHasSub (pyStripWS kw) (lowerStr (strip_sql_text raw) ++ lowerStr limitAppend) with
      | false => rfl
      | true =>
        exfalso
        rcases sub_append_split hv with hA | hB | ⟨p₁, p₂, hp, hp1, hp2, hst⟩
        · rw [htok kw hkw] at hA
          exact absurd hA (by simp)
        · have hb := List.all_eq_true.mp
            (by decide : FORBIDDEN_SQL_TOKENS.all
              (fun kw => !(strHasSub (pyStripWS kw) (lowerStr limitAppend))) = true) kw hkw
          have hb2 : strHasSub (pyStripWS kw) (lowerStr limitAppend) = false := by
            simpa using hb
          rw [hb2] at hB
          exact absurd hB (by simp)
        · rw [show lowerStr limitAppend = ' ' :: "limit 200".toList from by decide] at hst
          cases p₂ with
          | nil => exact hp2 rfl
          | cons x xs =>
            simp only [strStarts, Bool.and_eq_true, beq_iff_eq] at hst
            have hmem : ' ' ∈ pyStripWS kw := by
              rw [hp, hst.1]
              exact List.mem_append_right _ (List.mem_cons_self _ _)
            have hany : (pyStripWS kw).any (fun c => c == ' ') = true :=
              List.any_eq_true.mpr ⟨' ', hmem, by simp⟩
            have hnone := List.all_eq_true.mp
              (by decide : FORBIDDEN_SQL_TOKENS.all
                (fun kw => !((pyStripWS kw).any (fun c => c == ' '))) = true) kw hkw
            rw [hany] at hnone
            exact absurd hnone (by simp)
    · rw [List.length_append] at h3
      rw [List.length_append]
      omega

theorem ear_sql_shape (ex : Str → ToolResult) (cm : List (Str × ColMeta))
    (quoted q : Str) (r : ToolResult)
    (h : (exec_and_repair ex cm quoted).1 = SqlDecision.sql q r) :
    q = quoted ∨ ∃ pre target, q = forced_sub pre target quoted := by
  simp only [exec_and_repair] at h
  split at h
  · split at h
    · split at h
      · simp at h
        exact Or.inl h.1.symm
      · split at h
        · simp at h
          exact Or.inr ⟨_, _, h.1.symm⟩
        · simp at h
          exact Or.inl h.1.symm
    · simp at h
      exact Or.inl h.1.symm
  · simp at h
    exact Or.inl h.1.symm

theorem stage_sql_shape (cm : List (Str × ColMeta)) (exec? : Option (Str → ToolResult))
    (raw q : Str) (r : ToolResult)
    (h : (sql_sanitize_stage cm exec? raw).1 = SqlDecision.sql q r) :
    ∃ safe base, sanitize_sql raw = Except.ok safe ∧
      (base = safe ∨ base = auto_quote cm safe) ∧
      (q = base ∨ ∃ pre target, q = forced_sub pre target base) := by
  simp only [sql_sanitize_stage] at h
  cases hsan : sanitize_sql raw with
  | error e =>
    rw [hsan] at h
    simp at h
  | ok safe =>
    rw [hsan] at h
    dsimp only at h
    cases exec? with
    | none => simp at h
    | some ex =>
      dsimp only at h
      refine ⟨safe, if cm.isEmpty then safe else auto_quote cm safe, rfl, ?_, ?_⟩
      · by_cases hcm : cm.isEmpty = true
        · rw [if_pos hcm]
          exact Or.inl rfl
        · rw [if_neg hcm]
          exact Or.inr rfl
      · exact ear_sql_shape ex cm _ q r h

theorem smb_sql_shape (tables : List Str) (cm : List (Str × ColMeta))
    (exec? : Option (Str → ToolResult)) (raw q : Str) (r : ToolResult)
    (h : (sql_mode_branch tables cm exec? raw).1 = SqlDecision.sql q r) :
    ∃ raw2, (sql_sanitize_stage cm exec? raw2).1 = SqlDecision.sql q r := by
  simp only [sql_mode_branch] at h
  split at h
  · split at h
    · exact ⟨_, h⟩
    · simp at h
  · exact ⟨_, h⟩

/-- Claim C2 (amended): every `mode = "sql"` decision returned by
`maybe_sql_analyze` carries a query obtained from a
`sanitize_sql`-accepted statement by the auto-quoting pass and at most
one forced repair substitution; the accepted statement itself starts
with SELECT, contains a LIMIT occurrence, contains no forbidden token,
and is at most 2000 characters — but the later rewrites can break these
surface properties (see the counterexample), so they are guaranteed of
the pre-rewrite query only. -/
theorem C2_sql_invariant (ctxs : List SqlCtx) (question : Str)
    (sqlExec? : Option (Str → ToolResult)) (model? : Option SqlModel)
    (q : Str) (r : ToolResult) (evs : List Event)
    (h : maybe_sql_analyze ctxs question sqlExec? model? = (some (SqlDecision.sql q r), evs)) :
    ∃ raw safe base, sanitize_sql raw = Except.ok safe ∧
      (base = safe ∨ ∃ cm, base = auto_quote cm safe) ∧
      (q = base ∨ ∃ pre target, q = forced_sub pre target base) ∧
      strStarts selectTok (lowerStr safe) = true ∧
      strHasSub limitTok (lowerStr safe) = true ∧
      (∀ kw ∈ FORBIDDEN_SQL_TOKENS, strHasSub (pyStripWS kw) (lowerStr safe) = false) ∧
      safe.length ≤ 2000 := by
  unfold maybe_sql_analyze at h
  cases model? with
  | none => simp at h
  | some m =>
    dsimp only at h
    repeat' split at h
    all_goals
      first
        | (simp at h
           done)
        | (rw [Prod.mk.injEq] at h
           have h1 := h.1
           rw [Option.some.injEq] at h1
           rcases smb_sql_shape _ _ _ _ _ _ h1 with ⟨raw2, hstage⟩
           rcases stage_sql_shape _ _ _ _ _ hstage with ⟨safe, base, hsan, hbase, hq⟩
           rcases sanitize_ok_props raw2 safe hsan with ⟨hp1, hp2, hp3, hp4⟩
           exact ⟨raw2, safe, base, hsan,
             hbase.imp_right (fun hb => ⟨_, hb⟩), hq, hp1, hp2, hp3, hp4⟩)

/-- Claim C2 counterexample: with a (legal) column literally named
`select x` in the quoting metadata, the returned `sql` of a mode-sql
decision is `"select x" from t LIMIT 200`, which no longer starts with
SELECT — the post-sanitize rewrites can break the claimed invariant. -/
theorem C2_quoting_cex :
    (maybe_sql_analyze [c2wCtx] [] (some c2xExec) (some c2xModel)).1 =
      some (SqlDecision.sql c2xOut { status := some sSuccess }) ∧
    strStarts selectTok (lowerStr c2xOut) = false :=
  ⟨by rfl, by decide⟩

theorem C2_sql_invariant_witness :
    ∃ raw safe base, sanitize_sql raw = Except.ok safe ∧
      (base = safe ∨ ∃ cm, base = auto_quote cm safe) ∧
      (c2wOut = base ∨ ∃ pre target, c2wOut = forced_sub pre target base) ∧
      strStarts selectTok (lowerStr safe) = true ∧
      strHasSub limitTok (lowerStr safe) = true ∧
      (∀ kw ∈ FORBIDDEN_SQL_TOKENS, strHasSub (pyStripWS kw) (lowerStr safe) = false) ∧
      safe.length ≤ 2000 :=
  C2_sql_invariant [c2wCtx] [] (some c2wExec) (some c2wModel) c2wOut
    { status := some sSuccess } c2wEvs (by rfl)

/-- Claim C4: when the first execution reports an error whose message
matches `no such column: X` and the column metadata holds exactly one
column strictly extending `X`, exactly one repaired retry runs (the
truncated fragment force-quoted) and its result is returned as-is —
even a failure — with no further retry; with zero or several
candidates no retry occurs (the trace shows exactly one execution). -/
theorem C4_repair_retry (ex : Str → ToolResult) (cm : List (Str × ColMeta))
    (quoted missing msg : Str)
    (h1 : (ex quoted).status = some sError)
    (h2 : (ex quoted).message = some msg)
    (h3 : search_missing_col msg = some missing) :
    (∀ tb target, repair_candidates cm missing = [(tb, target)] →
      exec_and_repair ex cm quoted =
        (SqlDecision.sql (forced_sub (target.takeWhile (fun c => !(c == '&'))) target quoted)
            (ex (forced_sub (target.takeWhile (fun c => !(c == '&'))) target quoted)),
         [Event.toolCall (ToolCall.sqlTool quoted),
          Event.toolCall (ToolCall.sqlTool
            (forced_sub (target.takeWhile (fun c => !(c == '&'))) target quoted))])) ∧
    ((repair_candidates cm missing).length ≠ 1 →
      exec_and_repair ex cm quoted =
        (SqlDecision.sql quoted (ex quoted), [Event.toolCall (ToolCall.sqlTool quoted)])) := by
  have hcond : (ex quoted).status = some sError ∧ (ex quoted).message.isSome = true :=
    ⟨h1, by rw [h2]; rfl⟩
  have hget : (ex quoted).message.getD [] = msg := by rw [h2]; rfl
  constructor
  · intro tb target hc
    have hcmne : cm.isEmpty = false := by
      cases cm with
      | nil => simp [repair_candidates] at hc
      | cons a t => rfl
    simp only [exec_and_repair]
    rw [if_pos hcond, hget, h3]
    dsimp only
    rw [if_neg (by simp [hcmne]), hc]
    dsimp only
    rfl
  · intro hlen
    simp only [exec_and_repair]
    rw [if_pos hcond, hget, h3]
    dsimp only
    by_cases hcm : cm.isEmpty = true
    · rw [if_pos hcm]
    · rw [if_neg hcm]
      cases hc : repair_candidates cm missing with
      | nil => rfl
      | cons a t =>
        cases t with
        | nil =>
          rw [hc] at hlen
          simp at hlen
        | cons b t2 => rfl

theorem C4_repair_retry_witness :
    exec_and_repair c4Exec c4Meta c4Quoted =
      (SqlDecision.sql c4Repaired (c4Exec c4Repaired),
       [Event.toolCall (ToolCall.sqlTool c4Quoted),
        Event.toolCall (ToolCall.sqlTool c4Repaired)]) ∧
    exec_and_repair c4Exec [] c4Quoted =
      (SqlDecision.sql c4Quoted (c4Exec c4Quoted),
       [Event.toolCall (ToolCall.sqlTool c4Quoted)]) := by
  constructor
  · have h := (C4_repair_retry c4Exec c4Meta c4Quoted ("R".toList) c4Msg
      (by rfl) (by rfl) (by rfl)).1 ("t".toList) ("R&D_Spend".toList) (by rfl)
    exact h.trans (by rfl)
  · exact (C4_repair_retry c4Exec [] c4Quoted ("R".toList) c4Msg
      (by rfl) (by rfl) (by rfl)).2 (by decide)

/-- Claim C5: a generated query with a literal ` from data` reference
where `data` is not a detected table is rewritten (word-boundary,
case-insensitive substitution of `data` by the single detected table)
before sanitization and execution when exactly one table was detected;
with zero or several detected tables the natural-language retry answer
is returned and nothing is executed (empty trace). -/
theorem C5_table_substitution (tables : List Str) (cm : List (Str × ColMeta))
    (exec? : Option (Str → ToolResult)) (raw : Str)
    (h1 : strHasSub fromDataTok (lowerStr raw) = true)
    (h2 : tables.contains dataName = false) :
    (tables.length = 1 →
      sql_mode_branch tables cm exec? raw =
        sql_sanitize_stage cm exec? (sub_data_tables (tables.headD []) raw)) ∧
    (tables.length ≠ 1 →
      sql_mode_branch tables cm exec? raw = (SqlDecision.nl nlRetryMsg, [])) := by
  constructor
  · intro hlen
    simp only [sql_mode_branch]
    rw [if_pos ⟨h1, h2⟩, if_pos hlen]
  · intro hlen
    simp only [sql_mode_branch]
    rw [if_pos ⟨h1, h2⟩, if_neg hlen]

theorem C5_table_substitution_witness :
    sql_mode_branch [wTableSales] [] none wFromData =
      sql_sanitize_stage [] none (sub_data_tables wTableSales wFromData) ∧
    sub_data_tables wTableSales wFromData = "select * from sales".toList ∧
    sql_mode_branch [wTableA, wTableB] [] none wFromData = (SqlDecision.nl nlRetryMsg, []) := by
  refine ⟨?_, by decide, ?_⟩
  · exact (C5_table_substitution [wTableSales] [] none wFromData (by decide) (by decide)).1 rfl
  · exact (C5_table_substitution [wTableA, wTableB] [] none wFromData
      (by decide) (by decide)).2 (by decide)

theorem dedup_take_length (l : List Str) : ∀ seen k, (dedup_take seen k l).length ≤ k := by
  induction l with
  | nil => intro seen k; simp [dedup_take]
  | cons t ts ih =>
    intro seen k
    by_cases hc : lowerStr t ∈ seen ∨ k = 0
    · simp only [dedup_take, if_pos hc]
      exact ih seen k
    · simp only [dedup_take, if_neg hc]
      have hk : k ≠ 0 := fun h => hc (Or.inr h)
      have := ih (lowerStr t :: seen) (k - 1)
      simp only [List.length_cons]
      omega

theorem dedup_take_not_seen (l : List Str) :
    ∀ seen k x, x ∈ dedup_take seen k l → lowerStr x ∉ seen := by
  induction l with
  | nil => intro seen k x hx; simp [dedup_take] at hx
  | cons t ts ih =>
    intro seen k x hx
    by_cases hc : lowerStr t ∈ seen ∨ k = 0
    · rw [dedup_take, if_pos hc] at hx
      exact ih seen k x hx
    · rw [dedup_take, if_neg hc] at hx
      rcases List.mem_cons.mp hx with rfl | hx2
      · exact fun h => hc (Or.inl h)
      · have := ih (lowerStr t :: seen) (k - 1) x hx2
        exact fun h => this (List.mem_cons_of_mem _ h)

theorem dedup_take_pairwise (l : List Str) :
    ∀ seen k, List.Pairwise (fun a b => lowerStr a ≠ lowerStr b) (dedup_take seen k l) := by
  induction l with
  | nil => intro seen k; simp [dedup_take]
  | cons t ts ih =>
    intro seen k
    by_cases hc : lowerStr t ∈ seen ∨ k = 0
    · rw [dedup_take, if_pos hc]
      exact ih seen k
    · rw [dedup_take, if_neg hc]
      refine List.Pairwise.cons ?_ (ih _ _)
      intro b hb
      have := dedup_take_not_seen ts (lowerStr t :: seen) (k - 1) b hb
      intro heq
      exact this (heq ▸ List.mem_cons_self _ _)

theorem dedup_take_sublist (l : List Str) :
    ∀ seen k, (dedup_take seen k l).Sublist l := by
  induction l with
  | nil => intro seen k; simp [dedup_take]
  | cons t ts ih =>
    intro seen k
    by_cases hc : lowerStr t ∈ seen ∨ k = 0
    · rw [dedup_take, if_pos hc]
      exact (ih seen k).cons t
    · rw [dedup_take, if_neg hc]
      exact (ih _ _).cons₂ t

theorem dedup_take_ne_nil (t : Str) (ts : List Str) :
    dedup_take [] 12 (t :: ts) ≠ [] := by
  rw [dedup_take, if_neg (by simp)]
  simp

/-- Claim C7 (amended): `get_tags` returns at most 12 entries, all
pairwise distinct case-insensitively, first-seen-order preserved (a
sublist of the candidate sequence); the result is empty when the
question is empty or whitespace-only, and it is non-empty whenever the
heuristic token list is non-empty — but a non-empty question whose
every token has length ≤ 1 or > 40 can still yield an empty result
when the model contributes nothing (see the counterexample). -/
theorem C7_get_tags (m : Str → Except Str Str) (question : Str) :
    (get_tags m question).length ≤ 12 ∧
    List.Pairwise (fun a b => lowerStr a ≠ lowerStr b) (get_tags m question) ∧
    (pyStripWS question = [] → get_tags m question = []) ∧
    (heuristic_tags (pyStripWS question) ≠ [] → get_tags m question ≠ []) ∧
    (get_tags m question).Sublist (tag_candidates m (pyStripWS question)) := by
  unfold get_tags
  by_cases hbase : pyStripWS question = []
  · rw [if_pos hbase]
    refine ⟨by simp, by simp, fun _ => rfl, ?_, by simp⟩
    intro hne
    rw [hbase] at hne
    exact absurd rfl hne
  · rw [if_neg hbase]
    refine ⟨dedup_take_length _ _ _, dedup_take_pairwise _ _ _,
      fun h => absurd h hbase, ?_, dedup_take_sublist _ _ _⟩
    intro hne
    have hcand : tag_candidates m (pyStripWS question) ≠ [] := by
      unfold tag_candidates
      cases m (pyStripWS question) with
      | error e => exact hne
      | ok content =>
        dsimp only
        by_cases hmt : (model_tag_list content).isEmpty = true
        · rw [if_pos hmt]
          exact hne
        · rw [if_neg hmt]
          intro happ
          rcases List.append_eq_nil.mp happ with ⟨h1, _⟩
          exact hne h1
    cases hc : tag_candidates m (pyStripWS question) with
    | nil => exact absurd hc hcand
    | cons t ts => exact dedup_take_ne_nil t ts

/-- Claim C7 counterexample: the non-empty question `a` yields an empty
tag list when the model call fails, because every heuristic token of
length ≤ 1 is filtered out — refuting "empty iff the question is
empty/whitespace-only". -/
theorem C7_nonempty_cex :
    pyStripWS qSingleA ≠ [] ∧ get_tags c7Fail qSingleA = [] :=
  ⟨by decide, by rfl⟩

theorem C7_get_tags_witness :
    get_tags c7Fail [] = [] ∧ get_tags c7Fail qHelloWorld ≠ [] := by
  constructor
  · exact (C7_get_tags c7Fail []).2.2.1 (by rfl)
  · exact (C7_get_tags c7Fail qHelloWorld).2.2.2.1 (by decide)

/-- Claim C8: given a found tool handle, `call_tool` never propagates:
it returns a normalized dict in every case — error record on exception
or timeout, dict passthrough, JSON-object string passthrough, non-object
JSON wrapped as success, unparsable string wrapped as raw, and any
other value wrapped as success. -/
theorem C8_call_tool_normalization (loads : Str → Option PyVal)
    (tools : List ToolHandle) (nm : Str) (params : PyVal) (t : ToolHandle)
    (hfind : find_tool tools nm = some t) :
    (∃ d, call_tool loads tools nm params = .ok d) ∧
    (∀ m, t.invoke params = .raises m →
      call_tool loads tools nm params = .ok (errorDict m)) ∧
    (∀ d, t.invoke params = .returns (.dict d) →
      call_tool loads tools nm params = .ok (.dict d)) ∧
    (∀ s d, t.invoke params = .returns (.str s) → loads s = some (.dict d) →
      call_tool loads tools nm params = .ok (.dict d)) ∧
    (∀ s v, t.invoke params = .returns (.str s) → loads s = some v →
      (∀ d, v ≠ .dict d) →
      call_tool loads tools nm params = .ok (successDict v)) ∧
    (∀ s, t.invoke params = .returns (.str s) → loads s = none →
      call_tool loads tools nm params = .ok (rawDict s)) ∧
    (∀ v, t.invoke params = .returns v → (∀ d, v ≠ .dict d) → (∀ s, v ≠ .str s) →
      call_tool loads tools nm params = .ok (successDict v)) := by
  unfold call_tool
  rw [hfind]
  dsimp only
  refine ⟨?_, ?_, ?_, ?_, ?_, ?_, ?_⟩
  · cases t.invoke params with
    | raises m => exact ⟨_, rfl⟩
    | returns v => exact ⟨_, rfl⟩
  · intro m hinv
    rw [hinv]
  · intro d hinv
    rw [hinv]
    rfl
  · intro s d hinv hl
    rw [hinv]
    dsimp only
    unfold normalize_result
    dsimp only
    rw [hl]
  · intro s v hinv hl hnd
    rw [hinv]
    dsimp only
    unfold normalize_result
    dsimp only
    rw [hl]
    cases v with
    | dict d => exact absurd rfl (hnd d)
    | arr xs => rfl
    | str s2 => rfl
    | int n => rfl
    | bool b => rfl
    | null => rfl
  · intro s hinv hl
    rw [hinv]
    dsimp only
    unfold normalize_result
    dsimp only
    rw [hl]
  · intro v hinv hnd hns
    rw [hinv]
    dsimp only
    cases v with
    | dict d => exact absurd rfl (hnd d)
    | str s => exact absurd rfl (hns s)
    | arr xs => rfl
    | int n => rfl
    | bool b => rfl
    | null => rfl

theorem C8_call_tool_witness :
    call_tool loadsNone toolListW ("r".toList) PyVal.null = .ok (errorDict ("boom".toList)) ∧
    call_tool loadsNone toolListW ("d".toList) PyVal.null =
      .ok (.dict [(statusKey, PyVal.str sSuccess)]) ∧
    call_tool loadsDict toolListW ("s".toList) PyVal.null = .ok (.dict []) ∧
    call_tool loadsArr toolListW ("s".toList) PyVal.null = .ok (successDict (.arr [])) ∧
    call_tool loadsNone toolListW ("s".toList) PyVal.null = .ok (rawDict ("x".toList)) ∧
    call_tool loadsNone toolListW ("o".toList) PyVal.null = .ok (successDict (.int 3)) := by
  refine ⟨?_, ?_, ?_, ?_, ?_, ?_⟩
  · exact (C8_call_tool_normalization loadsNone toolListW ("r".toList) PyVal.null tRaiseH
      (by rfl)).2.1 _ rfl
  · exact (C8_call_tool_normalization loadsNone toolListW ("d".toList) PyVal.null tDictH
      (by rfl)).2.2.1 _ rfl
  · exact (C8_call_tool_normalization loadsDict toolListW ("s".toList) PyVal.null tStrH
      (by rfl)).2.2.2.1 _ _ rfl rfl
  · exact (C8_call_tool_normalization loadsArr toolListW ("s".toList) PyVal.null tStrH
      (by rfl)).2.2.2.2.1 _ _ rfl rfl (fun d h => PyVal.noConfusion h)
  · exact (C8_call_tool_normalization loadsNone toolListW ("s".toList) PyVal.null tStrH
      (by rfl)).2.2.2.2.2.1 _ rfl rfl
  · exact (C8_call_tool_normalization loadsNone toolListW ("o".toList) PyVal.null tOtherH
      (by rfl)).2.2.2.2.2.2 _ rfl (fun d h => PyVal.noConfusion h) (fun s h => PyVal.noConfusion h)

/-- Claim C6: when the overview `search_documents` call does not report
success, `ask` terminates immediately: the answer is the fixed
directory-retrieval-failure message, the final context is empty, the
tags are passed through, and the only backend tool call in the whole
trace is that single overview call (no expand, gather_context or
sql_tool invocation). -/
theorem C6_overview_failure (env : AskEnv) (question : Str) (wb : Bool)
    (h : (env.callTool (ToolCall.searchDocuments overviewModeStr none
        (get_tags (fun b => env.model (ModelSite.tags b)) question))).status ≠ some sSuccess) :
    (ask env question wb).1 =
      { answer := msgDirFail, final_context := [],
        tags := get_tags (fun b => env.model (ModelSite.tags b)) question } ∧
    ((ask env question wb).2.filter event_is_tool) =
      [Event.toolCall (ToolCall.searchDocuments overviewModeStr none
        (get_tags (fun b => env.model (ModelSite.tags b)) question))] := by
  unfold ask
  rw [if_pos h]
  constructor
  · rfl
  · by_cases hb : pyStripWS question = []
    · rw [if_pos hb]
      rfl
    · rw [if_neg hb]
      rfl

theorem C6_overview_failure_witness :
    (ask trivEnv qHi true).1 =
      { answer := msgDirFail, final_context := [],
        tags := get_tags (fun b => trivEnv.model (ModelSite.tags b)) qHi } ∧
    ((ask trivEnv qHi true).2.filter event_is_tool) =
      [Event.toolCall (ToolCall.searchDocuments overviewModeStr none
        (get_tags (fun b => trivEnv.model (ModelSite.tags b)) qHi))] :=
  C6_overview_failure trivEnv qHi true (by decide)

/-- Claim C9: the decomposition of `ask_report`: the model response
`["A?","B?","C?"]` (parsed by the JSON loader) yields exactly those
three sub-questions in order; a response with no parseable structure
(here the empty response, unparsable and without recoverable lines)
falls back to the original question as sole sub-question; and the list
is always capped at the caller-supplied maximum. -/
theorem C9_decomposition (loads : Str → Option PyVal) (question : Str) (maxSub : Nat) :
    (3 ≤ maxSub →
      loads arrTxtABC = some (PyVal.arr (abcList.map PyVal.str)) →
      decompose_question loads (some arrTxtABC) question maxSub = abcList) ∧
    (1 ≤ maxSub → loads [] = none →
      decompose_question loads (some []) question maxSub = [question]) ∧
    (∀ resp, (decompose_question loads resp question maxSub).length ≤ maxSub) := by
  refine ⟨?_, ?_, ?_⟩
  · intro hmax hload
    have hcore : decompose_core loads (some arrTxtABC) = abcList := by
      unfold decompose_core
      dsimp only
      rw [if_neg (show ¬(strStarts fenceTok (pyStripWS arrTxtABC) = true) from by decide)]
      rw [show pyStripWS arrTxtABC = arrTxtABC from by decide]
      rw [hload]
      rfl
    unfold decompose_question
    rw [hcore]
    rw [if_neg (by decide)]
    refine List.take_of_length_le ?_
    simp only [abcList, List.length_cons, List.length_nil]
    omega
  · intro hmax hload
    have hcore : decompose_core loads (some []) = [] := by
      unfold decompose_core
      dsimp only
      rw [if_neg (show ¬(strStarts fenceTok (pyStripWS ([] : Str)) = true) from by decide)]
      rw [show pyStripWS ([] : Str) = [] from rfl]
      rw [hload]
      rfl
    unfold decompose_question
    rw [hcore]
    rw [if_pos (by decide)]
    refine List.take_of_length_le ?_
    simp only [List.length_cons, List.length_nil]
    omega
  · intro resp
    unfold decompose_question
    exact List.length_take_le _ _

theorem C9_decomposition_witness :
    decompose_question loadsABC (some arrTxtABC) qMain 5 = abcList ∧
    decompose_question loadsNone (some []) qMain 5 = [qMain] ∧
    (decompose_question loadsNone none qMain 2).length ≤ 2 := by
  refine ⟨(C9_decomposition loadsABC qMain 5).1 (by omega) (by rfl),
    (C9_decomposition loadsNone qMain 5).2.1 (by omega) rfl,
    (C9_decomposition loadsNone qMain 2).2.2 none⟩

/-- Claim C10: for a whitespace-only (or empty) question, `ask_report`
returns the `{"mode":"report","error":...}` record immediately, with
an empty event trace: no model call, no sub-question run through the
ask pipeline, and no report artifact write. -/
theorem C10_empty_report (env : AskEnv) (loads : Str → Option PyVal)
    (question : Str) (maxSub : Nat)
    (h : pyStripWS question = []) :
    ask_report env loads question maxSub =
      ({ mode := reportStr, error := some msgEmptyQ }, []) := by
  unfold ask_report
  rw [if_pos h]

theorem C10_empty_report_witness :
    ask_report trivEnv loadsABC wsQ 5 = ({ mode := reportStr, error := some msgEmptyQ }, []) :=
  C10_empty_report trivEnv loadsABC wsQ 5 (by decide)
